import Mathlib

/-!
Shallow embedding of the packet-lifecycle tracking, aggregation and
windowed-sampling code of `src/sas26.cc` (an ns-3 LoRaWAN experiment script).

The embedding covers the trace callbacks `Sent`, `Ok`, `Interf`, `Under`,
`NoMore`, `Busy`, the helpers `GetEdId`, `ComputeLqi`, `GetIndexBasedOnSf`,
`RxPowerToSNR`, the sampler `CalcPdrsPerHour`, the reset `ClearData`, and the
KPI computations performed by `PrintMainData`.

Modelling decisions:
* C++ `double` time/power/sum values are modelled as `ℚ` (the code only adds,
  subtracts, divides and compares them; the decisive comparisons in the claims
  use exactly representable values).
* C++ `int` counters are modelled as `ℤ` (no claim depends on 32-bit overflow).
* `std::map<int, PacketInfo>` is modelled as an association list with
  `find` / insert-if-absent / update-through-iterator operations.
* `std::vector` per-SF buckets are lists with a positional increment that is a
  no-op out of range (the event interface constrains SF to 7..12).
* The one irrational constant, `log10(125e3)` inside `RxPowerToSNR`, enters all
  results only additively; it is kept as an explicit parameter `log10bw` of the
  run configuration rather than approximated.
* `NodeContainer::Get(uint32_t)` bounds are modelled explicitly for the
  `sfa == "asfa"` branch of `Interf` (the `int → uint32_t` conversion is taken
  modulo `2^32`).
-/

namespace Sas26

/-- The packet status enum `PktStatus` of the source (`SENT, OK, LOST, EXPIRED`). -/
inductive PktStatus where
  | SENT
  | OK
  | LOST
  | EXPIRED
deriving DecidableEq, Repr

/-- Application message classes carried by `AppTag` (`IMR`, `PCC`). -/
inductive MsgType where
  | IMR
  | PCC
deriving DecidableEq, Repr

/-- The per-packet record `PacketInfo` of the source. The constructor sets
`m_delay = -1`, `m_cpsrDelay = -1`, `m_status = SENT`. -/
structure PacketInfo where
  m_pktId : ℤ
  m_edId : ℤ
  m_txTime : ℚ
  m_delay : ℚ
  m_cpsrDelay : ℚ
  m_status : PktStatus
deriving DecidableEq, Repr

/-- A received/sent packet as seen through its tags: `GetUid`, the `AppTag`
message type, and the `LoraTag` receive power and spreading factor. -/
structure Packet where
  uid : ℤ
  msgType : MsgType
  receivePower : ℚ
  spreadingFactor : ℤ
deriving DecidableEq, Repr

/-- Run configuration: the command-line globals of the script that the
modelled functions read, plus the constant `log10bw` standing for the
irrational `log10(125e3)` used by `RxPowerToSNR`. -/
structure Params where
  sfa : String
  txMode : String
  nDevices : ℤ
  payloadSize : ℤ
  simulationTimeSeconds : ℚ
  log10bw : ℚ
deriving DecidableEq, Repr

/-- Global `imrDelay = 60 * 1000` (ms) of the source. -/
def imrDelay : ℚ := 60 * 1000

/-- Global `pccDelay = 1 * 1000` (ms) of the source. -/
def pccDelay : ℚ := 1 * 1000

/-- `std::map::find` on the association-list model of `pktInfoMap`. -/
def mapFind : List (ℤ × PacketInfo) → ℤ → Option PacketInfo
  | [], _ => none
  | (k, v) :: rest, k' => if k = k' then some v else mapFind rest k'

/-- `std::map::insert` for a key that is not present (the only way the source
inserts): the new binding is added to the map. -/
def mapInsert (m : List (ℤ × PacketInfo)) (k : ℤ) (v : PacketInfo) :
    List (ℤ × PacketInfo) :=
  (k, v) :: m

/-- In-place mutation of the record found by a `std::map` iterator: update the
binding of `k` (first occurrence) by `f`. -/
def mapUpdate : List (ℤ × PacketInfo) → ℤ → (PacketInfo → PacketInfo) →
    List (ℤ × PacketInfo)
  | [], _, _ => []
  | (k, v) :: rest, k', f =>
      if k = k' then (k, f v) :: rest else (k, v) :: mapUpdate rest k' f

/-- Positional `v[i]++` on an `std::vector<int>`; out-of-range indices leave
the list unchanged (the source only indexes with SF-7 for SF in 7..12). -/
def vinc : List ℤ → ℤ → List ℤ
  | [], _ => []
  | x :: xs, i => if i = 0 then (x + 1) :: xs else x :: vinc xs (i - 1)

/-- Positional `v[i] += d` on an `std::vector<double>`. -/
def vaddQ : List ℚ → ℤ → ℚ → List ℚ
  | [], _, _ => []
  | x :: xs, i, d => if i = 0 then (x + d) :: xs else x :: vaddQ xs (i - 1) d

/-- The mutable global state of the script: `pktInfoMap`, the per-outcome uid
vectors, every counter and sum, the per-SF buckets, the per-class counters,
and the window-sampler state. -/
structure SimState where
  pktInfoMap : List (ℤ × PacketInfo)
  expiredPkts : List ℤ
  interfPkts : List ℤ
  underPkts : List ℤ
  busyPkts : List ℤ
  noMorePkts : List ℤ
  okPkts : List ℤ
  nSent : ℤ
  nRec : ℤ
  nRetx : ℤ
  nReqTx : ℤ
  nRecAck : ℤ
  sumDelay : ℚ
  sumRssi : ℚ
  sumPktsRssi : ℚ
  sumSnr : ℚ
  sumPktsSnr : ℚ
  consumption : ℚ
  nTotalPkts : ℤ
  nLost : ℤ
  nInterf : ℤ
  nUnder : ℤ
  nBusy : ℤ
  nNoMore : ℤ
  nExpired : ℤ
  sfDist : List ℤ
  nSentPerHour : ℤ
  nRecPerHour : ℤ
  pdrsPerHourVec : List ℚ
  interfPerSf : List ℤ
  underPerSf : List ℤ
  expPerSf : List ℤ
  busyPerSf : List ℤ
  noMorePerSf : List ℤ
  delayPerApp : List ℚ
  nImrSent : ℤ
  nPccSent : ℤ
  nImrRec : ℤ
  nPccRec : ℤ

/-- The state at program start: every counter and sum zero-initialised, the
map and uid vectors empty, `sfDist`/per-SF vectors of six zero buckets,
`delayPerApp` of two zero entries — exactly the global initialisers. -/
def initState : SimState where
  pktInfoMap := []
  expiredPkts := []
  interfPkts := []
  underPkts := []
  busyPkts := []
  noMorePkts := []
  okPkts := []
  nSent := 0
  nRec := 0
  nRetx := 0
  nReqTx := 0
  nRecAck := 0
  sumDelay := 0
  sumRssi := 0
  sumPktsRssi := 0
  sumSnr := 0
  sumPktsSnr := 0
  consumption := 0
  nTotalPkts := 0
  nLost := 0
  nInterf := 0
  nUnder := 0
  nBusy := 0
  nNoMore := 0
  nExpired := 0
  sfDist := List.replicate 6 0
  nSentPerHour := 0
  nRecPerHour := 0
  pdrsPerHourVec := []
  interfPerSf := List.replicate 6 0
  underPerSf := List.replicate 6 0
  expPerSf := List.replicate 6 0
  busyPerSf := List.replicate 6 0
  noMorePerSf := List.replicate 6 0
  delayPerApp := [0, 0]
  nImrSent := 0
  nPccSent := 0
  nImrRec := 0
  nPccRec := 0

/-- `RxPowerToSNR(p) = p + 174 - 10*log10(bandwidth) - NF` with the default
`bandwidth = 125e3`, `NF = 6`; `log10bw` stands for `log10(125e3)`. -/
def RxPowerToSNR (log10bw : ℚ) (transmissionPower : ℚ) : ℚ :=
  transmissionPower + 174 - 10 * log10bw - 6

/-- The `Sent` trace callback: a seen uid only bumps `nRetx`; a new uid
inserts a `SENT` record, bumps the per-class sent counter for its `AppTag`
class, and bumps `nSent` and `nSentPerHour`. `now` is the simulator time in
milliseconds. -/
def Sent (pkt : Packet) (edId : ℤ) (now : ℚ) (s : SimState) : SimState :=
  match mapFind s.pktInfoMap pkt.uid with
  | some _ => { s with nRetx := s.nRetx + 1 }
  | none =>
      let pktInfo : PacketInfo :=
        { m_pktId := pkt.uid
          m_edId := edId
          m_txTime := now
          m_delay := -1
          m_cpsrDelay := -1
          m_status := PktStatus.SENT }
      let s1 := { s with pktInfoMap := mapInsert s.pktInfoMap pkt.uid pktInfo }
      let s2 :=
        match pkt.msgType with
        | MsgType.IMR => { s1 with nImrSent := s1.nImrSent + 1 }
        | MsgType.PCC => { s1 with nPccSent := s1.nPccSent + 1 }
      { s2 with nSent := s2.nSent + 1, nSentPerHour := s2.nSentPerHour + 1 }

/-- `GetEdId`: the sender id of the packet's record, or `-1` if the uid is not
in `pktInfoMap`. -/
def GetEdId (pkt : Packet) (s : SimState) : ℤ :=
  match mapFind s.pktInfoMap pkt.uid with
  | none => -1
  | some info => info.m_edId

/-- `ComputeLqi`: fold the packet's receive power and derived SNR into the
all-observed sums and bump `nTotalPkts`. -/
def ComputeLqi (p : Params) (pkt : Packet) (s : SimState) : SimState :=
  { s with
    sumPktsRssi := s.sumPktsRssi + pkt.receivePower
    sumPktsSnr := s.sumPktsSnr + RxPowerToSNR p.log10bw pkt.receivePower
    nTotalPkts := s.nTotalPkts + 1 }

/-- `GetIndexBasedOnSf`: the spreading factor of the packet's `LoraTag`
minus 7. -/
def GetIndexBasedOnSf (pkt : Packet) : ℤ :=
  pkt.spreadingFactor - 7

/-- The `Ok` (`ReceivedPacket`) trace callback. Unknown uid: return at once.
Known uid: fold into the all-observed sums, then, only if the record is still
unresolved (`m_delay == -1`): add to the delivered-only RSSI/SNR sums, set the
record's delay, and classify against the class deadline — `IMR` with
`delay <= imrDelay` or `PCC` with `delay <= pccDelay` counts as received,
anything else is marked `EXPIRED`. -/
def Ok (p : Params) (pkt : Packet) (gwId : ℤ) (now : ℚ) (s : SimState) :
    SimState :=
  match mapFind s.pktInfoMap pkt.uid with
  | none => s
  | some info =>
      let s1 := ComputeLqi p pkt s
      if info.m_delay ≠ -1 then s1
      else
        let rssi := pkt.receivePower
        let snr := RxPowerToSNR p.log10bw rssi
        let s2 := { s1 with sumRssi := s1.sumRssi + rssi, sumSnr := s1.sumSnr + snr }
        let delay := now - info.m_txTime
        let s3 :=
          { s2 with
            pktInfoMap := mapUpdate s2.pktInfoMap pkt.uid
              (fun i => { i with m_delay := delay })
            sumDelay := s2.sumDelay + delay }
        if pkt.msgType = MsgType.IMR ∧ delay ≤ imrDelay then
          { s3 with
            pktInfoMap := mapUpdate s3.pktInfoMap pkt.uid
              (fun i => { i with m_status := PktStatus.OK })
            nImrRec := s3.nImrRec + 1
            nRec := s3.nRec + 1
            nRecPerHour := s3.nRecPerHour + 1
            okPkts := s3.okPkts ++ [pkt.uid]
            delayPerApp := vaddQ s3.delayPerApp 0 delay }
        else if pkt.msgType = MsgType.PCC ∧ delay ≤ pccDelay then
          { s3 with
            pktInfoMap := mapUpdate s3.pktInfoMap pkt.uid
              (fun i => { i with m_status := PktStatus.OK })
            nPccRec := s3.nPccRec + 1
            nRec := s3.nRec + 1
            nRecPerHour := s3.nRecPerHour + 1
            okPkts := s3.okPkts ++ [pkt.uid]
            delayPerApp := vaddQ s3.delayPerApp 1 delay }
        else
          { s3 with
            pktInfoMap := mapUpdate s3.pktInfoMap pkt.uid
              (fun i => { i with m_status := PktStatus.EXPIRED })
            nExpired := s3.nExpired + 1
            expiredPkts := s3.expiredPkts ++ [pkt.uid]
            expPerSf := vinc s3.expPerSf (GetIndexBasedOnSf pkt) }

/-- The `Interf` (`LostPacketBecauseInterference`) trace callback: bump
`nInterf` and `nLost`, fold the all-observed sums, bump the per-SF bucket,
append the uid. The `sfa == "asfa"` branch additionally acts on the end-device
container at index `GetEdId(pkt)`; that access does not touch this state and
is modelled by `interfAsfaEdIndex` / `interfAsfaAccessInBounds` below. -/
def Interf (p : Params) (pkt : Packet) (gwId : ℤ) (s : SimState) : SimState :=
  let s1 := { s with nInterf := s.nInterf + 1, nLost := s.nLost + 1 }
  let s2 := ComputeLqi p pkt s1
  { s2 with
    interfPerSf := vinc s2.interfPerSf (pkt.spreadingFactor - 7)
    interfPkts := s2.interfPkts ++ [pkt.uid] }

/-- The index actually passed to `NodeContainer::Get` by the `asfa` branch of
`Interf`: `GetEdId` returns a C++ `int`, and `Get` takes `uint32_t`, so the
value is converted modulo `2^32`. -/
def interfAsfaEdIndex (pkt : Packet) (s : SimState) : ℕ :=
  ((GetEdId pkt s) % (2 ^ 32 : ℤ)).toNat

/-- Whether the container access of the `asfa` branch of `Interf` is in
bounds: the converted index must be below the number of nodes in the
container (`nDevices` end devices). Vacuously true when the branch is not
taken. -/
def interfAsfaAccessInBounds (p : Params) (pkt : Packet) (s : SimState) : Prop :=
  p.sfa = "asfa" → interfAsfaEdIndex pkt s < p.nDevices.toNat

instance (p : Params) (pkt : Packet) (s : SimState) :
    Decidable (interfAsfaAccessInBounds p pkt s) := by
  unfold interfAsfaAccessInBounds
  infer_instance

/-- The `Under` (`LostPacketBecauseUnderSensitivity`) trace callback. -/
def Under (p : Params) (pkt : Packet) (gwId : ℤ) (s : SimState) : SimState :=
  let s1 := { s with nUnder := s.nUnder + 1, nLost := s.nLost + 1 }
  let s2 := ComputeLqi p pkt s1
  { s2 with
    underPkts := s2.underPkts ++ [pkt.uid]
    underPerSf := vinc s2.underPerSf (GetIndexBasedOnSf pkt) }

/-- The `NoMore` (`LostPacketBecauseNoMoreReceivers`) trace callback. -/
def NoMore (p : Params) (pkt : Packet) (gwId : ℤ) (s : SimState) : SimState :=
  let s1 := { s with nNoMore := s.nNoMore + 1, nLost := s.nLost + 1 }
  let s2 := ComputeLqi p pkt s1
  { s2 with
    noMorePkts := s2.noMorePkts ++ [pkt.uid]
    noMorePerSf := vinc s2.noMorePerSf (GetIndexBasedOnSf pkt) }

/-- The `Busy` (`NoReceptionBecauseTransmitting`) trace callback. -/
def Busy (p : Params) (pkt : Packet) (gwId : ℤ) (s : SimState) : SimState :=
  let s1 := { s with nBusy := s.nBusy + 1, nLost := s.nLost + 1 }
  let s2 := ComputeLqi p pkt s1
  { s2 with
    busyPkts := s2.busyPkts ++ [pkt.uid]
    busyPerSf := vinc s2.busyPerSf (GetIndexBasedOnSf pkt) }

/-- The hourly sampler `CalcPdrsPerHour`: compute the window delivery ratio
(zero when nothing was sent in the window), clamp it to 100, append it to
`pdrsPerHourVec`, and zero the two per-window counters. (The self-rescheduling
`Simulator::Schedule` call has no effect on this state.) -/
def CalcPdrsPerHour (s : SimState) : SimState :=
  let pdr : ℚ :=
    if s.nSentPerHour > 0 then ((s.nRecPerHour : ℚ) / (s.nSentPerHour : ℚ)) * 100
    else 0
  { s with
    pdrsPerHourVec := s.pdrsPerHourVec ++ [if pdr ≤ 100 then pdr else 100]
    nSentPerHour := 0
    nRecPerHour := 0 }

/-- `ClearData`: `clear()` every container — the map, the uid vectors, the
per-SF buckets, `sfDist`, `pdrsPerHourVec`, `delayPerApp`. No scalar counter
or sum is touched. -/
def ClearData (s : SimState) : SimState :=
  { s with
    pktInfoMap := []
    sfDist := []
    pdrsPerHourVec := []
    interfPerSf := []
    expiredPkts := []
    interfPkts := []
    underPkts := []
    busyPkts := []
    noMorePkts := []
    okPkts := []
    underPerSf := []
    expPerSf := []
    noMorePerSf := []
    busyPerSf := []
    delayPerApp := [] }

/-- Division producing `none` on a zero denominator: used to model the C++
`x / y` double divisions that have no zero guard (a `none` marks a division
by zero actually performed by the code). -/
def qdiv (a b : ℚ) : Option ℚ :=
  if b = 0 then none else some (a / b)

/-- The KPI values computed by `PrintMainData`. Guarded fields (computed with
an explicit `cond ? x/y : 0` ternary in the source) are total; unguarded
fields are `Option ℚ` via `qdiv`. `imrMeanDelay`/`pccMeanDelay` are the
`delayPerApp[0]/nImrRec` and `delayPerApp[1]/nPccRec` expressions of the
`nack` output row. -/
structure MainKpis where
  pdr : ℚ
  imrPdr : ℚ
  billingPdr : ℚ
  avgDelay : ℚ
  avgRssi : ℚ
  avgSnr : ℚ
  energyCons : Option ℚ
  tput : Option ℚ
  ee1 : Option ℚ
  ee2 : Option ℚ
  ee3 : Option ℚ
  ee4 : Option ℚ
  avgPktsRssi : ℚ
  avgPktsSnr : ℚ
  cpsr : ℚ
  imrMeanDelay : Option ℚ
  pccMeanDelay : Option ℚ
deriving DecidableEq, Repr

/-- The derived-KPI computation of `PrintMainData`, line by line:
`pdr`/`imrPdr`/`billingPdr` guard on the sent counters, the delivered-only and
all-observed means guard on `nRec`/`nTotalPkts`, `cpsr` guards on `nRec` (and
is only computed in `ack` mode); `energyCons`, `tput` and `ee1`..`ee4` divide
with no guard, as do the per-class mean delays of the `nack` row. -/
def PrintMainData (p : Params) (s : SimState) : MainKpis :=
  let bits : ℚ := (s.nRec : ℚ) * (p.payloadSize : ℚ) * 8
  let energyCons := qdiv s.consumption (p.nDevices : ℚ)
  let tput := qdiv bits p.simulationTimeSeconds
  { pdr := (if s.nSent > 0 then (s.nRec : ℚ) / (s.nSent : ℚ) else 0) * 100
    imrPdr := (if s.nImrSent > 0 then (s.nImrRec : ℚ) / (s.nImrSent : ℚ) else 0) * 100
    billingPdr := (if s.nPccSent > 0 then (s.nPccRec : ℚ) / (s.nPccSent : ℚ) else 0) * 100
    avgDelay := if s.nRec > 0 then s.sumDelay / (s.nRec : ℚ) else 0
    avgRssi := if s.nRec > 0 then s.sumRssi / (s.nRec : ℚ) else 0
    avgSnr := if s.nRec > 0 then s.sumSnr / (s.nRec : ℚ) else 0
    energyCons := energyCons
    tput := tput
    ee1 := qdiv bits s.consumption
    ee2 := energyCons.bind (fun e => qdiv bits e)
    ee3 := energyCons.bind (fun e => tput.bind (fun tp => qdiv tp e))
    ee4 := tput.bind (fun tp => qdiv tp s.consumption)
    avgPktsRssi := if s.nTotalPkts > 0 then s.sumPktsRssi / (s.nTotalPkts : ℚ) else 0
    avgPktsSnr := if s.nTotalPkts > 0 then s.sumPktsSnr / (s.nTotalPkts : ℚ) else 0
    cpsr :=
      if p.txMode = "ack" then
        if s.nRec > 0 then ((s.nRecAck : ℚ) / (s.nRec : ℚ)) * 100 else 0
      else 0
    imrMeanDelay := (s.delayPerApp.get? 0).bind (fun d => qdiv d (s.nImrRec : ℚ))
    pccMeanDelay := (s.delayPerApp.get? 1).bind (fun d => qdiv d (s.nPccRec : ℚ)) }

/-- One event of the trace stream delivered to the callbacks: a transmission
start, a gateway reception, or one of the four loss notifications. Timestamps
(`now`, milliseconds) accompany the events whose handlers read the clock. -/
inductive Event where
  | sent (pkt : Packet) (edId : ℤ) (now : ℚ)
  | ok (pkt : Packet) (gwId : ℤ) (now : ℚ)
  | interf (pkt : Packet) (gwId : ℤ)
  | under (pkt : Packet) (gwId : ℤ)
  | noMore (pkt : Packet) (gwId : ℤ)
  | busy (pkt : Packet) (gwId : ℤ)
deriving DecidableEq, Repr

/-- Dispatch one event to its handler. -/
def step (p : Params) (s : SimState) : Event → SimState
  | Event.sent pkt ed now => Sent pkt ed now s
  | Event.ok pkt gw now => Ok p pkt gw now s
  | Event.interf pkt gw => Interf p pkt gw s
  | Event.under pkt gw => Under p pkt gw s
  | Event.noMore pkt gw => NoMore p pkt gw s
  | Event.busy pkt gw => Busy p pkt gw s

/-- Process a whole event stream in order. -/
def run (p : Params) (s : SimState) (es : List Event) : SimState :=
  List.foldl (step p) s es

/-- Sum of the four loss-cause counters. -/
def lossSum (s : SimState) : ℤ :=
  s.nInterf + s.nUnder + s.nNoMore + s.nBusy

/-- Number of ledger records still unresolved (`m_delay = -1`). -/
def unresolved : List (ℤ × PacketInfo) → ℤ
  | [] => 0
  | (_, info) :: rest => (if info.m_delay = -1 then 1 else 0) + unresolved rest

/-- Number of ids in `sent` that do not occur in `used`. -/
def pendingCount : List ℤ → List ℤ → ℤ
  | [], _ => 0
  | i :: rest, used => (if i ∈ used then 0 else 1) + pendingCount rest used

/-- `Resolv t sent used es` holds when, starting from a run in which the ids
in `sent` have been sent (at times at most `t`, with non-decreasing event
times) and the ids in `used` have already received their one outcome event,
the stream `es` sends fresh or repeated ids and gives every sent id exactly
one outcome event (a reception or a loss), each after its send, with no
outcome events for never-sent ids and none left over at the end. This is the
claim's hypothesis that every sent packet eventually receives exactly one
resolving outcome event. -/
inductive Resolv : ℚ → List ℤ → List ℤ → List Event → Prop where
  | done : ∀ t sent used, (∀ i ∈ sent, i ∈ used) → Resolv t sent used []
  | sendNew : ∀ t sent used pkt ed now es,
      t ≤ now → pkt.uid ∉ sent →
      Resolv now (pkt.uid :: sent) used es →
      Resolv t sent used (Event.sent pkt ed now :: es)
  | sendRetx : ∀ t sent used pkt ed now es,
      t ≤ now → pkt.uid ∈ sent →
      Resolv now sent used es →
      Resolv t sent used (Event.sent pkt ed now :: es)
  | okEv : ∀ t sent used pkt gw now es,
      t ≤ now → pkt.uid ∈ sent → pkt.uid ∉ used →
      Resolv now sent (pkt.uid :: used) es →
      Resolv t sent used (Event.ok pkt gw now :: es)
  | interfEv : ∀ t sent used pkt gw es,
      pkt.uid ∈ sent → pkt.uid ∉ used →
      Resolv t sent (pkt.uid :: used) es →
      Resolv t sent used (Event.interf pkt gw :: es)
  | underEv : ∀ t sent used pkt gw es,
      pkt.uid ∈ sent → pkt.uid ∉ used →
      Resolv t sent (pkt.uid :: used) es →
      Resolv t sent used (Event.under pkt gw :: es)
  | noMoreEv : ∀ t sent used pkt gw es,
      pkt.uid ∈ sent → pkt.uid ∉ used →
      Resolv t sent (pkt.uid :: used) es →
      Resolv t sent used (Event.noMore pkt gw :: es)
  | busyEv : ∀ t sent used pkt gw es,
      pkt.uid ∈ sent → pkt.uid ∉ used →
      Resolv t sent (pkt.uid :: used) es →
      Resolv t sent used (Event.busy pkt gw :: es)

/-- Mid-run invariant tying the state to the trace bookkeeping of `Resolv`:
the ledger keys are exactly the sent ids, send times are bounded by the
clock, resolved records have consumed their outcome, and the counters balance
against the number of unresolved records and pending outcomes. -/
structure Inv (t : ℚ) (sent used : List ℤ) (s : SimState) : Prop where
  keys_iff : ∀ id, (mapFind s.pktInfoMap id).isSome = true ↔ id ∈ sent
  tx_le : ∀ id info, mapFind s.pktInfoMap id = some info → info.m_txTime ≤ t
  resolved_used : ∀ id info, mapFind s.pktInfoMap id = some info →
    info.m_delay ≠ -1 → id ∈ used
  sent_nodup : sent.Nodup
  used_sub : ∀ i, i ∈ used → i ∈ sent
  bal : s.nSent = s.nRec + s.nExpired + unresolved s.pktInfoMap
  pend : unresolved s.pktInfoMap = lossSum s + pendingCount sent used

/-- Default run configuration used by the concrete witnesses: the script's
default command-line values, with `5` standing in for `log10(125e3)`. -/
def p0 : Params where
  sfa := ""
  txMode := "nack"
  nDevices := 200
  payloadSize := 51
  simulationTimeSeconds := 86400
  log10bw := 5

/-- A concrete IMR-class packet used by witnesses. -/
def pktImr : Packet where
  uid := 1
  msgType := MsgType.IMR
  receivePower := -100
  spreadingFactor := 7

/-- A concrete PCC-class packet used by witnesses. -/
def pktPcc : Packet where
  uid := 2
  msgType := MsgType.PCC
  receivePower := -90
  spreadingFactor := 9

/-- A state holding one tracked packet still in `SENT`. -/
def sSentOnly : SimState :=
  Sent pktImr 3 0 initState

/-- A state holding one packet delivered on time (`nSent = nRec = 1`). -/
def sDelivered : SimState :=
  Ok p0 pktImr 1 5 sSentOnly

/-- A two-event stream: one send and its on-time delivery. -/
def esW : List Event :=
  [Event.sent pktImr 3 0, Event.ok pktImr 1 5]

/-! ### Helper lemmas about the association-list ledger and the counters -/

theorem run_cons (p : Params) (s : SimState) (e : Event) (es : List Event) :
    run p s (e :: es) = run p (step p s e) es :=
  rfl

/-- Concrete evaluation of `sDelivered`: the state after one IMR send at
time 0 and its delivery at time 5 ms (on time). -/
theorem sDelivered_eval :
    sDelivered = { initState with
      pktInfoMap := [(1, (⟨1, 3, 0, 5, -1, PktStatus.OK⟩ : PacketInfo))]
      nSent := 1
      nSentPerHour := 1
      nImrSent := 1
      nRec := 1
      nRecPerHour := 1
      nImrRec := 1
      okPkts := [1]
      sumDelay := 5
      sumRssi := -100
      sumSnr := 18
      sumPktsRssi := -100
      sumPktsSnr := 18
      nTotalPkts := 1
      delayPerApp := [5, 0] } := by
  norm_num [sDelivered, sSentOnly, Ok, Sent, ComputeLqi, initState, mapFind,
    mapInsert, mapUpdate, vaddQ, imrDelay, pccDelay, RxPowerToSNR, p0, pktImr]

theorem mapFind_update_self (m : List (ℤ × PacketInfo)) (k : ℤ)
    (f : PacketInfo → PacketInfo) (v : PacketInfo) (h : mapFind m k = some v) :
    mapFind (mapUpdate m k f) k = some (f v) := by
  induction m with
  | nil => simp [mapFind] at h
  | cons kv rest ih =>
    obtain ⟨k1, v1⟩ := kv
    by_cases hk : k1 = k
    · subst hk
      simp [mapFind] at h
      simp [mapUpdate, mapFind, h]
    · simp only [mapFind, if_neg hk] at h
      simp only [mapUpdate, if_neg hk, mapFind, if_neg hk]
      exact ih h

theorem mapFind_update_ne (m : List (ℤ × PacketInfo)) (k k' : ℤ)
    (f : PacketInfo → PacketInfo) (h : k' ≠ k) :
    mapFind (mapUpdate m k f) k' = mapFind m k' := by
  induction m with
  | nil => simp [mapUpdate, mapFind]
  | cons kv rest ih =>
    obtain ⟨k1, v1⟩ := kv
    by_cases hk : k1 = k
    · subst hk
      simp only [mapUpdate, if_pos rfl, mapFind]
      rw [if_neg (fun hkk => h hkk.symm), if_neg (fun hkk => h hkk.symm)]
    · simp only [mapUpdate, if_neg hk, mapFind]
      by_cases hk' : k1 = k'
      · simp [hk']
      · simp only [if_neg hk']
        exact ih

theorem isSome_mapFind_update (m : List (ℤ × PacketInfo)) (k k' : ℤ)
    (f : PacketInfo → PacketInfo) :
    (mapFind (mapUpdate m k f) k').isSome = (mapFind m k').isSome := by
  by_cases h : k' = k
  · subst h
    cases hm : mapFind m k' with
    | none =>
      have : mapUpdate m k' f = m := by
        induction m with
        | nil => rfl
        | cons kv rest ih =>
          obtain ⟨k1, v1⟩ := kv
          by_cases hk : k1 = k'
          · subst hk; simp [mapFind] at hm
          · simp only [mapFind, if_neg hk] at hm
            simp [mapUpdate, if_neg hk, ih hm]
      rw [this, hm]
    | some v => rw [mapFind_update_self m k' f v hm]; rfl
  · rw [mapFind_update_ne m k k' f h]

theorem unresolved_update (m : List (ℤ × PacketInfo)) (k : ℤ)
    (f : PacketInfo → PacketInfo) (v : PacketInfo) (h : mapFind m k = some v) :
    unresolved (mapUpdate m k f) + (if v.m_delay = -1 then 1 else 0)
      = unresolved m + (if (f v).m_delay = -1 then 1 else 0) := by
  induction m with
  | nil => simp [mapFind] at h
  | cons kv rest ih =>
    obtain ⟨k1, v1⟩ := kv
    by_cases hk : k1 = k
    · subst hk
      simp [mapFind] at h
      subst h
      simp only [mapUpdate, if_pos rfl, unresolved]
      ring
    · simp only [mapFind, if_neg hk] at h
      simp only [mapUpdate, if_neg hk, unresolved]
      have := ih h
      omega

theorem unresolved_update_resolve (m : List (ℤ × PacketInfo)) (k : ℤ) (d : ℚ)
    (v : PacketInfo) (hm : mapFind m k = some v) (hv : v.m_delay = -1)
    (hd : d ≠ -1) :
    unresolved (mapUpdate m k (fun i => { i with m_delay := d }))
      = unresolved m - 1 := by
  induction m with
  | nil => simp [mapFind] at hm
  | cons kv rest ih =>
    obtain ⟨k1, v1⟩ := kv
    by_cases hk : k1 = k
    · subst hk
      simp [mapFind] at hm
      subst hm
      simp only [mapUpdate, if_pos rfl, unresolved]
      rw [if_neg hd, if_pos hv]
      ring
    · simp only [mapFind, if_neg hk] at hm
      simp only [mapUpdate, if_neg hk, unresolved]
      rw [ih hm]
      ring

theorem unresolved_update_status (m : List (ℤ × PacketInfo)) (k : ℤ)
    (st : PktStatus) :
    unresolved (mapUpdate m k (fun i => { i with m_status := st }))
      = unresolved m := by
  induction m with
  | nil => rfl
  | cons kv rest ih =>
    obtain ⟨k1, v1⟩ := kv
    by_cases hk : k1 = k
    · subst hk
      simp only [mapUpdate, if_pos rfl, unresolved]
    · simp only [mapUpdate, if_neg hk, unresolved]
      rw [ih]

theorem pendingCount_zero (sent used : List ℤ) (h : ∀ i ∈ sent, i ∈ used) :
    pendingCount sent used = 0 := by
  induction sent with
  | nil => rfl
  | cons i rest ih =>
    simp only [pendingCount, if_pos (h i (by simp))]
    rw [ih (fun j hj => h j (by simp [hj]))]
    omega

theorem pendingCount_insert_notmem (sent used : List ℤ) (id : ℤ) (h : id ∉ sent) :
    pendingCount sent (id :: used) = pendingCount sent used := by
  induction sent with
  | nil => rfl
  | cons i rest ih =>
    have hi : i ≠ id := fun hii => h (by simp [hii])
    have hrest : id ∉ rest := fun hr => h (by simp [hr])
    simp only [pendingCount, List.mem_cons]
    rw [ih hrest]
    have : (i = id ∨ i ∈ used) ↔ i ∈ used := by
      constructor
      · rintro (hii | hiu)
        · exact absurd hii hi
        · exact hiu
      · exact fun hiu => Or.inr hiu
    simp only [this]

theorem pendingCount_insert (sent used : List ℤ) (id : ℤ) (hnd : sent.Nodup)
    (hin : id ∈ sent) (hni : id ∉ used) :
    pendingCount sent (id :: used) + 1 = pendingCount sent used := by
  induction sent with
  | nil => simp at hin
  | cons a rest ih =>
    by_cases ha : a = id
    · subst ha
      have hrest : a ∉ rest := (List.nodup_cons.mp hnd).1
      have hmem : a ∈ a :: used := List.mem_cons.mpr (Or.inl rfl)
      simp only [pendingCount, if_pos hmem, if_neg hni]
      rw [pendingCount_insert_notmem rest used a hrest]
      ring
    · have hir : id ∈ rest := by
        rcases List.mem_cons.mp hin with h1 | h2
        · exact absurd h1.symm ha
        · exact h2
      have hiff : (a ∈ id :: used) ↔ a ∈ used := by
        simp only [List.mem_cons]
        constructor
        · rintro (hii | hiu)
          · exact absurd hii ha
          · exact hiu
        · exact fun hiu => Or.inr hiu
      simp only [pendingCount, hiff]
      have := ih (List.nodup_cons.mp hnd).2 hir
      omega

theorem vinc_get (l : List ℤ) (i : ℕ) (h : i < l.length) :
    (vinc l (i : ℤ)).get? i = (l.get? i).map (fun x => x + 1) := by
  induction l generalizing i with
  | nil => simp at h
  | cons x xs ih =>
    cases i with
    | zero => simp [vinc]
    | succ n =>
      have hne : ((n : ℤ) + 1 ≠ 0) := by omega
      simp only [vinc, Nat.cast_succ, if_neg hne, add_sub_cancel_right]
      simp only [List.get?, List.length_cons] at h ⊢
      exact ih n (by omega)

/-! ### Characterisations of the handlers, used by the invariant proofs -/

theorem Sent_retx_char (pkt : Packet) (ed : ℤ) (now : ℚ) (s : SimState)
    (info : PacketInfo) (hf : mapFind s.pktInfoMap pkt.uid = some info) :
    Sent pkt ed now s = { s with nRetx := s.nRetx + 1 } := by
  simp [Sent, hf]

theorem Sent_new_char (pkt : Packet) (ed : ℤ) (now : ℚ) (s : SimState)
    (hf : mapFind s.pktInfoMap pkt.uid = none) :
    (Sent pkt ed now s).pktInfoMap
        = (pkt.uid, (⟨pkt.uid, ed, now, -1, -1, PktStatus.SENT⟩ : PacketInfo))
            :: s.pktInfoMap ∧
    (Sent pkt ed now s).nSent = s.nSent + 1 ∧
    (Sent pkt ed now s).nRec = s.nRec ∧
    (Sent pkt ed now s).nExpired = s.nExpired ∧
    lossSum (Sent pkt ed now s) = lossSum s := by
  cases hm : pkt.msgType <;> simp [Sent, hf, hm, mapInsert, lossSum]

theorem Ok_resolve_char (p : Params) (pkt : Packet) (gw : ℤ) (now : ℚ)
    (s : SimState) (info : PacketInfo)
    (hf : mapFind s.pktInfoMap pkt.uid = some info) (hdel : info.m_delay = -1) :
    (∃ st, (Ok p pkt gw now s).pktInfoMap
        = mapUpdate (mapUpdate s.pktInfoMap pkt.uid
            (fun i => { i with m_delay := now - info.m_txTime })) pkt.uid
            (fun i => { i with m_status := st })) ∧
    (Ok p pkt gw now s).nRec + (Ok p pkt gw now s).nExpired
        = s.nRec + s.nExpired + 1 ∧
    (Ok p pkt gw now s).nSent = s.nSent ∧
    lossSum (Ok p pkt gw now s) = lossSum s := by
  have hnn : ¬ info.m_delay ≠ -1 := by simp [hdel]
  simp only [Ok, hf]
  rw [if_neg hnn]
  split_ifs with h1 h2
  · exact ⟨⟨PktStatus.OK, rfl⟩, by simp only [ComputeLqi]; ring, rfl, rfl⟩
  · exact ⟨⟨PktStatus.OK, rfl⟩, by simp only [ComputeLqi]; ring, rfl, rfl⟩
  · exact ⟨⟨PktStatus.EXPIRED, rfl⟩, by simp only [ComputeLqi]; ring, rfl, rfl⟩

/-- A record that has already been resolved freezes the delivery handler:
`Ok` only runs `ComputeLqi`. -/
theorem Ok_already_resolved (p : Params) (pkt : Packet) (gw : ℤ) (now : ℚ)
    (s : SimState) (info : PacketInfo)
    (hf : mapFind s.pktInfoMap pkt.uid = some info) (hres : info.m_delay ≠ -1) :
    Ok p pkt gw now s = ComputeLqi p pkt s := by
  simp only [Ok, hf]
  rw [if_pos hres]

/-! ### Invariant preservation -/

theorem Inv_init : Inv 0 [] [] initState := by
  constructor
  · intro id; simp [initState, mapFind]
  · intro id info h; simp [initState, mapFind] at h
  · intro id info h; simp [initState, mapFind] at h
  · exact List.nodup_nil
  · intro i h; simp at h
  · simp [initState, unresolved]
  · simp [initState, unresolved, lossSum, pendingCount]

theorem Inv_step_sendNew (t now : ℚ) (sent used : List ℤ) (s : SimState)
    (pkt : Packet) (ed : ℤ) (inv : Inv t sent used s) (hle : t ≤ now)
    (hnew : pkt.uid ∉ sent) :
    Inv now (pkt.uid :: sent) used (Sent pkt ed now s) := by
  have hf : mapFind s.pktInfoMap pkt.uid = none := by
    cases hm : mapFind s.pktInfoMap pkt.uid with
    | none => rfl
    | some v =>
      exact absurd ((inv.keys_iff pkt.uid).mp (by rw [hm]; rfl)) hnew
  obtain ⟨hmap, hns, hnr, hne, hls⟩ := Sent_new_char pkt ed now s hf
  have hni : pkt.uid ∉ used := fun hu => hnew (inv.used_sub _ hu)
  have hunres : unresolved (Sent pkt ed now s).pktInfoMap
      = unresolved s.pktInfoMap + 1 := by
    rw [hmap]; simp [unresolved]; ring
  constructor
  · intro id
    rw [hmap]
    by_cases hid : pkt.uid = id
    · subst hid; simp [mapFind]
    · simp only [mapFind, if_neg hid, List.mem_cons]
      rw [inv.keys_iff id]
      constructor
      · exact fun h => Or.inr h
      · rintro (h | h)
        · exact absurd h.symm hid
        · exact h
  · intro id info h
    rw [hmap] at h
    by_cases hid : pkt.uid = id
    · subst hid
      rw [show mapFind ((pkt.uid, (⟨pkt.uid, ed, now, -1, -1, PktStatus.SENT⟩ : PacketInfo)) :: s.pktInfoMap) pkt.uid = some ⟨pkt.uid, ed, now, -1, -1, PktStatus.SENT⟩ from by simp [mapFind]] at h
      injection h with h
      rw [← h]
    · rw [show mapFind ((pkt.uid, (⟨pkt.uid, ed, now, -1, -1, PktStatus.SENT⟩ : PacketInfo)) :: s.pktInfoMap) id = mapFind s.pktInfoMap id from by simp [mapFind, hid]] at h
      exact le_trans (inv.tx_le id info h) hle
  · intro id info h hd
    rw [hmap] at h
    by_cases hid : pkt.uid = id
    · subst hid
      rw [show mapFind ((pkt.uid, (⟨pkt.uid, ed, now, -1, -1, PktStatus.SENT⟩ : PacketInfo)) :: s.pktInfoMap) pkt.uid = some ⟨pkt.uid, ed, now, -1, -1, PktStatus.SENT⟩ from by simp [mapFind]] at h
      injection h with h
      rw [← h] at hd
      exact (hd rfl).elim
    · rw [show mapFind ((pkt.uid, (⟨pkt.uid, ed, now, -1, -1, PktStatus.SENT⟩ : PacketInfo)) :: s.pktInfoMap) id = mapFind s.pktInfoMap id from by simp [mapFind, hid]] at h
      exact inv.resolved_used id info h hd
  · exact List.nodup_cons.mpr ⟨hnew, inv.sent_nodup⟩
  · intro i h
    exact List.mem_cons.mpr (Or.inr (inv.used_sub i h))
  · rw [hns, hnr, hne, hunres]
    have := inv.bal
    omega
  · rw [hunres, hls]
    simp only [pendingCount, if_neg hni]
    have := inv.pend
    omega

theorem Inv_step_sendRetx (t now : ℚ) (sent used : List ℤ) (s : SimState)
    (pkt : Packet) (ed : ℤ) (inv : Inv t sent used s) (hle : t ≤ now)
    (hold : pkt.uid ∈ sent) :
    Inv now sent used (Sent pkt ed now s) := by
  have hsome : (mapFind s.pktInfoMap pkt.uid).isSome = true :=
    (inv.keys_iff pkt.uid).mpr hold
  obtain ⟨info, hf⟩ := Option.isSome_iff_exists.mp hsome
  rw [Sent_retx_char pkt ed now s info hf]
  constructor
  · exact inv.keys_iff
  · exact fun id inf h => le_trans (inv.tx_le id inf h) hle
  · exact inv.resolved_used
  · exact inv.sent_nodup
  · exact inv.used_sub
  · exact inv.bal
  · exact inv.pend

theorem Inv_step_loss_core (t : ℚ) (sent used : List ℤ) (s sp : SimState)
    (uid : ℤ) (inv : Inv t sent used s)
    (hin : uid ∈ sent) (hni : uid ∉ used)
    (hmap : sp.pktInfoMap = s.pktInfoMap)
    (hsent : sp.nSent = s.nSent) (hrec : sp.nRec = s.nRec)
    (hexp : sp.nExpired = s.nExpired)
    (hloss : lossSum sp = lossSum s + 1) :
    Inv t sent (uid :: used) sp := by
  constructor
  · intro id; rw [hmap]; exact inv.keys_iff id
  · intro id info h; rw [hmap] at h; exact inv.tx_le id info h
  · intro id info h hd
    rw [hmap] at h
    exact List.mem_cons.mpr (Or.inr (inv.resolved_used id info h hd))
  · exact inv.sent_nodup
  · intro i h
    rcases List.mem_cons.mp h with h1 | h2
    · rw [h1]; exact hin
    · exact inv.used_sub i h2
  · rw [hmap, hsent, hrec, hexp]; exact inv.bal
  · rw [hmap, hloss]
    have hp := pendingCount_insert sent used uid inv.sent_nodup hin hni
    have := inv.pend
    omega

theorem Inv_step_ok (p : Params) (t now : ℚ) (sent used : List ℤ)
    (s : SimState) (pkt : Packet) (gw : ℤ) (inv : Inv t sent used s)
    (hle : t ≤ now) (hin : pkt.uid ∈ sent) (hni : pkt.uid ∉ used) :
    Inv now sent (pkt.uid :: used) (Ok p pkt gw now s) := by
  have hsome : (mapFind s.pktInfoMap pkt.uid).isSome = true :=
    (inv.keys_iff pkt.uid).mpr hin
  obtain ⟨info, hf⟩ := Option.isSome_iff_exists.mp hsome
  have hdel : info.m_delay = -1 := by
    by_contra hne
    exact hni (inv.resolved_used pkt.uid info hf hne)
  have htx : info.m_txTime ≤ t := inv.tx_le pkt.uid info hf
  have hdnew : now - info.m_txTime ≠ -1 := by
    have h0 : (0 : ℚ) ≤ now - info.m_txTime := by linarith
    intro hcontra
    rw [hcontra] at h0
    norm_num at h0
  obtain ⟨⟨st, hmap⟩, hcnt, hns, hls⟩ := Ok_resolve_char p pkt gw now s info hf hdel
  have hfind1 : mapFind (mapUpdate s.pktInfoMap pkt.uid
      (fun i => { i with m_delay := now - info.m_txTime })) pkt.uid
      = some { info with m_delay := now - info.m_txTime } :=
    mapFind_update_self _ _ _ _ hf
  have hunres : unresolved (Ok p pkt gw now s).pktInfoMap
      = unresolved s.pktInfoMap - 1 := by
    rw [hmap, unresolved_update_status,
      unresolved_update_resolve s.pktInfoMap pkt.uid (now - info.m_txTime)
        info hf hdel hdnew]
  constructor
  · intro id
    rw [hmap, isSome_mapFind_update, isSome_mapFind_update]
    exact inv.keys_iff id
  · intro id info2 h
    rw [hmap] at h
    by_cases hid : id = pkt.uid
    · subst hid
      rw [mapFind_update_self _ _ _ _ hfind1] at h
      injection h with h
      rw [← h]
      exact le_trans htx (le_trans hle (le_refl now))
    · rw [mapFind_update_ne _ _ _ _ hid, mapFind_update_ne _ _ _ _ hid] at h
      exact le_trans (inv.tx_le id info2 h) hle
  · intro id info2 h hd
    rw [hmap] at h
    by_cases hid : id = pkt.uid
    · subst hid
      exact List.mem_cons.mpr (Or.inl rfl)
    · rw [mapFind_update_ne _ _ _ _ hid, mapFind_update_ne _ _ _ _ hid] at h
      exact List.mem_cons.mpr (Or.inr (inv.resolved_used id info2 h hd))
  · exact inv.sent_nodup
  · intro i h
    rcases List.mem_cons.mp h with h1 | h2
    · rw [h1]; exact hin
    · exact inv.used_sub i h2
  · rw [hns, hunres]
    have := inv.bal
    omega
  · rw [hunres, hls]
    have hp := pendingCount_insert sent used pkt.uid inv.sent_nodup hin hni
    have := inv.pend
    omega

/-- Main induction for the counter-balance claim: processing a stream in
which every sent id gets exactly one outcome event preserves the invariant
and yields the balance at the end. -/
theorem run_resolv (p : Params) (es : List Event) (t : ℚ)
    (sent used : List ℤ) (hres : Resolv t sent used es) :
    ∀ s : SimState, Inv t sent used s →
      (run p s es).nSent
        = (run p s es).nRec + (run p s es).nExpired + lossSum (run p s es) := by
  induction hres with
  | done t sent used hcov =>
    intro s inv
    simp only [run, List.foldl_nil]
    have h0 := pendingCount_zero sent used hcov
    have hb := inv.bal
    have hp := inv.pend
    omega
  | sendNew t sent used pkt ed now es hle hnew hres ih =>
    intro s inv
    rw [run_cons]
    exact ih (Sent pkt ed now s) (Inv_step_sendNew t now sent used s pkt ed inv hle hnew)
  | sendRetx t sent used pkt ed now es hle hold hres ih =>
    intro s inv
    rw [run_cons]
    exact ih (Sent pkt ed now s) (Inv_step_sendRetx t now sent used s pkt ed inv hle hold)
  | okEv t sent used pkt gw now es hle hin hni hres ih =>
    intro s inv
    rw [run_cons]
    exact ih (Ok p pkt gw now s) (Inv_step_ok p t now sent used s pkt gw inv hle hin hni)
  | interfEv t sent used pkt gw es hin hni hres ih =>
    intro s inv
    rw [run_cons]
    refine ih (Interf p pkt gw s) (Inv_step_loss_core t sent used s _ pkt.uid inv hin hni ?_ ?_ ?_ ?_ ?_)
    · simp [Interf, ComputeLqi]
    · simp [Interf, ComputeLqi]
    · simp [Interf, ComputeLqi]
    · simp [Interf, ComputeLqi]
    · simp [Interf, ComputeLqi, lossSum]; ring
  | underEv t sent used pkt gw es hin hni hres ih =>
    intro s inv
    rw [run_cons]
    refine ih (Under p pkt gw s) (Inv_step_loss_core t sent used s _ pkt.uid inv hin hni ?_ ?_ ?_ ?_ ?_)
    · simp [Under, ComputeLqi]
    · simp [Under, ComputeLqi]
    · simp [Under, ComputeLqi]
    · simp [Under, ComputeLqi]
    · simp [Under, ComputeLqi, lossSum]; ring
  | noMoreEv t sent used pkt gw es hin hni hres ih =>
    intro s inv
    rw [run_cons]
    refine ih (NoMore p pkt gw s) (Inv_step_loss_core t sent used s _ pkt.uid inv hin hni ?_ ?_ ?_ ?_ ?_)
    · simp [NoMore, ComputeLqi]
    · simp [NoMore, ComputeLqi]
    · simp [NoMore, ComputeLqi]
    · simp [NoMore, ComputeLqi]
    · simp [NoMore, ComputeLqi, lossSum]; ring
  | busyEv t sent used pkt gw es hin hni hres ih =>
    intro s inv
    rw [run_cons]
    refine ih (Busy p pkt gw s) (Inv_step_loss_core t sent used s _ pkt.uid inv hin hni ?_ ?_ ?_ ?_ ?_)
    · simp [Busy, ComputeLqi]
    · simp [Busy, ComputeLqi]
    · simp [Busy, ComputeLqi]
    · simp [Busy, ComputeLqi]
    · simp [Busy, ComputeLqi, lossSum]; ring


/-! ### Claim theorems -/

/-- C1, counterexample: processing the same interference-loss event twice for
a tracked, still-`SENT` packet increments the loss-cause counter and its
per-SF bucket both times — the replay is double-counted, contrary to the
claim. -/
theorem C1_replayed_loss_double_counts :
    (Interf p0 pktImr 1 sSentOnly).nInterf = 1 ∧
    (Interf p0 pktImr 1 (Interf p0 pktImr 1 sSentOnly)).nInterf = 2 ∧
    (Interf p0 pktImr 1 (Interf p0 pktImr 1 sSentOnly)).interfPerSf
        = [2, 0, 0, 0, 0, 0] ∧
    (mapFind (Interf p0 pktImr 1 (Interf p0 pktImr 1 sSentOnly)).pktInfoMap
        pktImr.uid).map PacketInfo.m_status = some PktStatus.SENT := by
  decide

/-- C1, amended: a record leaves `SENT` at most once — once its delay is set
(`m_delay ≠ -1`), a replayed delivery event changes neither the ledger nor
any delivery, expiry, per-class or per-SF-expiry counter (only the
all-observed LQI sums); a replayed send only bumps the retry counter; loss
handlers never mutate the ledger but increment their cause counter on every
invocation, so replayed loss events are double-counted. -/
theorem C1_amended_exactly_once (p : Params) (pkt : Packet) (gw ed : ℤ)
    (now : ℚ) (s : SimState) (info : PacketInfo)
    (hf : mapFind s.pktInfoMap pkt.uid = some info)
    (hres : info.m_delay ≠ -1) :
    ((Ok p pkt gw now s).pktInfoMap = s.pktInfoMap ∧
     (Ok p pkt gw now s).nRec = s.nRec ∧
     (Ok p pkt gw now s).nExpired = s.nExpired ∧
     (Ok p pkt gw now s).nImrRec = s.nImrRec ∧
     (Ok p pkt gw now s).nPccRec = s.nPccRec ∧
     (Ok p pkt gw now s).nRecPerHour = s.nRecPerHour ∧
     (Ok p pkt gw now s).okPkts = s.okPkts ∧
     (Ok p pkt gw now s).expiredPkts = s.expiredPkts ∧
     (Ok p pkt gw now s).expPerSf = s.expPerSf ∧
     (Ok p pkt gw now s).sumDelay = s.sumDelay ∧
     (Ok p pkt gw now s).delayPerApp = s.delayPerApp) ∧
    Sent pkt ed now s = { s with nRetx := s.nRetx + 1 } ∧
    ((Interf p pkt gw s).pktInfoMap = s.pktInfoMap ∧
     (Interf p pkt gw s).nInterf = s.nInterf + 1) ∧
    ((Under p pkt gw s).pktInfoMap = s.pktInfoMap ∧
     (Under p pkt gw s).nUnder = s.nUnder + 1) ∧
    ((NoMore p pkt gw s).pktInfoMap = s.pktInfoMap ∧
     (NoMore p pkt gw s).nNoMore = s.nNoMore + 1) ∧
    ((Busy p pkt gw s).pktInfoMap = s.pktInfoMap ∧
     (Busy p pkt gw s).nBusy = s.nBusy + 1) := by
  refine ⟨?_, Sent_retx_char pkt ed now s info hf,
    ⟨rfl, rfl⟩, ⟨rfl, rfl⟩, ⟨rfl, rfl⟩, ⟨rfl, rfl⟩⟩
  rw [Ok_already_resolved p pkt gw now s info hf hres]
  exact ⟨rfl, rfl, rfl, rfl, rfl, rfl, rfl, rfl, rfl, rfl, rfl⟩

theorem C1_amended_exactly_once_witness :
    mapFind sDelivered.pktInfoMap pktImr.uid
        = some (⟨1, 3, 0, 5, -1, PktStatus.OK⟩ : PacketInfo) ∧
    ((⟨1, 3, 0, 5, -1, PktStatus.OK⟩ : PacketInfo).m_delay ≠ -1) ∧
    (Ok p0 pktImr 1 9 sDelivered).nRec = sDelivered.nRec ∧
    (Interf p0 pktImr 1 sDelivered).nInterf = sDelivered.nInterf + 1 :=
  ⟨by rw [sDelivered_eval]; decide, by decide,
   (C1_amended_exactly_once p0 pktImr 1 3 9 sDelivered
      ⟨1, 3, 0, 5, -1, PktStatus.OK⟩ (by rw [sDelivered_eval]; decide)
      (by decide)).1.2.1,
   (C1_amended_exactly_once p0 pktImr 1 3 9 sDelivered
      ⟨1, 3, 0, 5, -1, PktStatus.OK⟩ (by rw [sDelivered_eval]; decide)
      (by decide)).2.2.1.2⟩

/-- C2: whenever every sent packet receives exactly one resolving outcome
event (formalised by `Resolv`), the final counters satisfy
`nSent = nRec + nExpired + (nInterf + nUnder + nNoMore + nBusy)`. -/
theorem C2_counter_balance (p : Params) (es : List Event)
    (h : Resolv 0 [] [] es) :
    (run p initState es).nSent
      = (run p initState es).nRec + (run p initState es).nExpired
        + ((run p initState es).nInterf + (run p initState es).nUnder
            + (run p initState es).nNoMore + (run p initState es).nBusy) := by
  have hb := run_resolv p es 0 [] [] h initState Inv_init
  simpa [lossSum] using hb

theorem C2_counter_balance_witness :
    (run p0 initState esW).nSent
      = (run p0 initState esW).nRec + (run p0 initState esW).nExpired
        + ((run p0 initState esW).nInterf + (run p0 initState esW).nUnder
            + (run p0 initState esW).nNoMore + (run p0 initState esW).nBusy) :=
  C2_counter_balance p0 esW
    (Resolv.sendNew 0 [] [] pktImr 3 0 _ (le_refl 0) (by simp)
      (Resolv.okEv 0 [pktImr.uid] [] pktImr 1 5 _ (by norm_num) (by simp)
        (by simp)
        (Resolv.done 5 [pktImr.uid] [pktImr.uid] (by simp))))

/-- C3, counterexample: on the empty aggregate state the energy-efficiency
KPI `ee1 = bits / consumption` divides by `consumption = 0` with no guard
(modelled as `none`), and likewise the per-class mean delay
`delayPerApp[1] / nPccRec`; they do not evaluate to zero. -/
theorem C3_unguarded_zero_denominator :
    (PrintMainData p0 initState).ee1 = none ∧
    initState.consumption = 0 ∧
    (PrintMainData p0 initState).pccMeanDelay = none ∧
    initState.nPccRec = 0 := by
  decide

/-- C3, amended: the explicitly guarded KPIs (delivery ratios, mean delay,
mean RSSI/SNR over delivered and all-observed packets, CPSR) evaluate to zero
when their denominator is non-positive; but `energyCons`, `tput`,
`ee1`..`ee4` and the per-class mean delays divide with no guard and perform a
division by zero whenever their denominator is zero. -/
theorem C3_amended_kpi_guards (p : Params) (s : SimState) :
    (s.nSent ≤ 0 → (PrintMainData p s).pdr = 0) ∧
    (s.nImrSent ≤ 0 → (PrintMainData p s).imrPdr = 0) ∧
    (s.nPccSent ≤ 0 → (PrintMainData p s).billingPdr = 0) ∧
    (s.nRec ≤ 0 → (PrintMainData p s).avgDelay = 0 ∧
      (PrintMainData p s).avgRssi = 0 ∧ (PrintMainData p s).avgSnr = 0 ∧
      (PrintMainData p s).cpsr = 0) ∧
    (s.nTotalPkts ≤ 0 → (PrintMainData p s).avgPktsRssi = 0 ∧
      (PrintMainData p s).avgPktsSnr = 0) ∧
    (s.consumption = 0 → (PrintMainData p s).ee1 = none ∧
      (PrintMainData p s).ee4 = none) ∧
    ((p.nDevices : ℚ) = 0 → (PrintMainData p s).energyCons = none ∧
      (PrintMainData p s).ee2 = none ∧ (PrintMainData p s).ee3 = none) ∧
    (p.simulationTimeSeconds = 0 → (PrintMainData p s).tput = none) ∧
    (s.nImrRec = 0 → (PrintMainData p s).imrMeanDelay = none) ∧
    (s.nPccRec = 0 → (PrintMainData p s).pccMeanDelay = none) := by
  refine ⟨?_, ?_, ?_, ?_, ?_, ?_, ?_, ?_, ?_, ?_⟩
  · intro h
    simp only [PrintMainData]
    rw [if_neg (by omega : ¬ s.nSent > 0)]
    ring
  · intro h
    simp only [PrintMainData]
    rw [if_neg (by omega : ¬ s.nImrSent > 0)]
    ring
  · intro h
    simp only [PrintMainData]
    rw [if_neg (by omega : ¬ s.nPccSent > 0)]
    ring
  · intro h
    have hn : ¬ s.nRec > 0 := by omega
    refine ⟨?_, ?_, ?_, ?_⟩ <;> simp only [PrintMainData]
    · rw [if_neg hn]
    · rw [if_neg hn]
    · rw [if_neg hn]
    · split_ifs <;> rfl
  · intro h
    have hn : ¬ s.nTotalPkts > 0 := by omega
    exact ⟨by simp only [PrintMainData]; rw [if_neg hn],
      by simp only [PrintMainData]; rw [if_neg hn]⟩
  · intro h
    constructor
    · simp only [PrintMainData, qdiv]
      rw [if_pos h]
    · simp only [PrintMainData]
      cases hq : qdiv ((s.nRec : ℚ) * (p.payloadSize : ℚ) * 8)
          p.simulationTimeSeconds with
      | none => simp
      | some tp => simp [qdiv, h]
  · intro h
    refine ⟨?_, ?_, ?_⟩ <;> simp [PrintMainData, qdiv, h]
  · intro h
    simp [PrintMainData, qdiv, h]
  · intro h
    simp only [PrintMainData]
    cases hg : s.delayPerApp.get? 0 with
    | none => rfl
    | some d =>
      show qdiv d ((s.nImrRec : ℤ) : ℚ) = none
      rw [h]
      simp [qdiv]
  · intro h
    simp only [PrintMainData]
    cases hg : s.delayPerApp.get? 1 with
    | none => rfl
    | some d =>
      show qdiv d ((s.nPccRec : ℤ) : ℚ) = none
      rw [h]
      simp [qdiv]

theorem C3_amended_kpi_guards_witness :
    (PrintMainData p0 initState).pdr = 0 ∧
    (PrintMainData p0 initState).ee4 = none :=
  ⟨(C3_amended_kpi_guards p0 initState).1 (by decide),
   ((C3_amended_kpi_guards p0 initState).2.2.2.2.2.1 rfl).2⟩

/-- C4, counterexample: an interference loss for an id that is present and
still `SENT` leaves the record in `SENT` — it is never marked terminal — even
though the counters are incremented. -/
theorem C4_loss_leaves_record_in_sent :
    (mapFind (Interf p0 pktImr 1 sSentOnly).pktInfoMap pktImr.uid).map
        PacketInfo.m_status = some PktStatus.SENT ∧
    (Interf p0 pktImr 1 sSentOnly).nInterf = sSentOnly.nInterf + 1 ∧
    (Interf p0 pktImr 1 sSentOnly).nLost = sSentOnly.nLost + 1 := by
  decide

/-- C4, amended: loss handlers never mutate the ledger at all — present or
absent, `SENT` or not, the record is untouched — while the global cause
counter, `nLost` and the per-SF bucket are incremented on every event. -/
theorem C4_amended_loss_ledger_noop (p : Params) (pkt : Packet) (gw : ℤ)
    (s : SimState) (h7 : 7 ≤ pkt.spreadingFactor)
    (h12 : pkt.spreadingFactor ≤ 12)
    (hlenI : s.interfPerSf.length = 6) (hlenU : s.underPerSf.length = 6)
    (hlenN : s.noMorePerSf.length = 6) (hlenB : s.busyPerSf.length = 6) :
    ((Interf p pkt gw s).pktInfoMap = s.pktInfoMap ∧
     (Interf p pkt gw s).nInterf = s.nInterf + 1 ∧
     (Interf p pkt gw s).nLost = s.nLost + 1 ∧
     (Interf p pkt gw s).interfPerSf.get? (pkt.spreadingFactor - 7).toNat
       = (s.interfPerSf.get? (pkt.spreadingFactor - 7).toNat).map
           (fun x => x + 1)) ∧
    ((Under p pkt gw s).pktInfoMap = s.pktInfoMap ∧
     (Under p pkt gw s).nUnder = s.nUnder + 1 ∧
     (Under p pkt gw s).nLost = s.nLost + 1 ∧
     (Under p pkt gw s).underPerSf.get? (pkt.spreadingFactor - 7).toNat
       = (s.underPerSf.get? (pkt.spreadingFactor - 7).toNat).map
           (fun x => x + 1)) ∧
    ((NoMore p pkt gw s).pktInfoMap = s.pktInfoMap ∧
     (NoMore p pkt gw s).nNoMore = s.nNoMore + 1 ∧
     (NoMore p pkt gw s).nLost = s.nLost + 1 ∧
     (NoMore p pkt gw s).noMorePerSf.get? (pkt.spreadingFactor - 7).toNat
       = (s.noMorePerSf.get? (pkt.spreadingFactor - 7).toNat).map
           (fun x => x + 1)) ∧
    ((Busy p pkt gw s).pktInfoMap = s.pktInfoMap ∧
     (Busy p pkt gw s).nBusy = s.nBusy + 1 ∧
     (Busy p pkt gw s).nLost = s.nLost + 1 ∧
     (Busy p pkt gw s).busyPerSf.get? (pkt.spreadingFactor - 7).toNat
       = (s.busyPerSf.get? (pkt.spreadingFactor - 7).toNat).map
           (fun x => x + 1)) := by
  have hidx : (((pkt.spreadingFactor - 7).toNat : ℕ) : ℤ)
      = pkt.spreadingFactor - 7 := Int.toNat_of_nonneg (by omega)
  refine ⟨⟨rfl, rfl, rfl, ?_⟩, ⟨rfl, rfl, rfl, ?_⟩,
    ⟨rfl, rfl, rfl, ?_⟩, ⟨rfl, rfl, rfl, ?_⟩⟩
  · show (vinc s.interfPerSf (pkt.spreadingFactor - 7)).get?
        (pkt.spreadingFactor - 7).toNat = _
    rw [← hidx]
    exact vinc_get s.interfPerSf (pkt.spreadingFactor - 7).toNat (by omega)
  · show (vinc s.underPerSf (pkt.spreadingFactor - 7)).get?
        (pkt.spreadingFactor - 7).toNat = _
    rw [← hidx]
    exact vinc_get s.underPerSf (pkt.spreadingFactor - 7).toNat (by omega)
  · show (vinc s.noMorePerSf (pkt.spreadingFactor - 7)).get?
        (pkt.spreadingFactor - 7).toNat = _
    rw [← hidx]
    exact vinc_get s.noMorePerSf (pkt.spreadingFactor - 7).toNat (by omega)
  · show (vinc s.busyPerSf (pkt.spreadingFactor - 7)).get?
        (pkt.spreadingFactor - 7).toNat = _
    rw [← hidx]
    exact vinc_get s.busyPerSf (pkt.spreadingFactor - 7).toNat (by omega)

theorem C4_amended_loss_ledger_noop_witness :
    (7 ≤ pktPcc.spreadingFactor ∧ pktPcc.spreadingFactor ≤ 12) ∧
    (Interf p0 pktPcc 1 sSentOnly).interfPerSf.get?
        (pktPcc.spreadingFactor - 7).toNat = some 1 ∧
    (NoMore p0 pktPcc 1 sSentOnly).noMorePerSf.get?
        (pktPcc.spreadingFactor - 7).toNat = some 1 ∧
    (Busy p0 pktPcc 1 sSentOnly).busyPerSf.get?
        (pktPcc.spreadingFactor - 7).toNat = some 1 := by
  refine ⟨⟨by decide, by decide⟩, ?_, ?_, ?_⟩
  · rw [(C4_amended_loss_ledger_noop p0 pktPcc 1 sSentOnly (by decide)
      (by decide) (by decide) (by decide) (by decide) (by decide)).1.2.2.2]
    decide
  · rw [(C4_amended_loss_ledger_noop p0 pktPcc 1 sSentOnly (by decide)
      (by decide) (by decide) (by decide) (by decide) (by decide)).2.2.1.2.2.2]
    decide
  · rw [(C4_amended_loss_ledger_noop p0 pktPcc 1 sSentOnly (by decide)
      (by decide) (by decide) (by decide) (by decide) (by decide)).2.2.2.2.2.2]
    decide

/-- C5, counterexample: a delivery event for an id never sent returns before
`ComputeLqi`, so the all-observed signal statistics are NOT incremented — the
handler is a complete no-op, contrary to the claim. -/
theorem C5_unknown_delivery_ignored :
    Ok p0 pktImr 1 5 initState = initState ∧
    initState.nTotalPkts = 0 ∧
    initState.sumPktsRssi = 0 ∧
    initState.sumPktsSnr = 0 :=
  ⟨rfl, rfl, rfl, rfl⟩

/-- C5, amended: a delivery event whose id has no ledger record performs no
mutation at all — neither the ledger, nor any classification counter, nor the
all-observed signal statistics (unlike loss events, which do update them for
unknown ids). -/
theorem C5_amended_unknown_delivery_noop (p : Params) (pkt : Packet)
    (gw : ℤ) (now : ℚ) (s : SimState)
    (hf : mapFind s.pktInfoMap pkt.uid = none) :
    Ok p pkt gw now s = s := by
  simp [Ok, hf]

theorem C5_amended_unknown_delivery_noop_witness :
    mapFind initState.pktInfoMap pktImr.uid = none ∧
    Ok p0 pktImr 1 5 initState = initState :=
  ⟨rfl, C5_amended_unknown_delivery_noop p0 pktImr 1 5 initState rfl⟩

/-- C6: deadline classification is inclusive at the boundary — a PCC packet
whose delay is 1001 ms (class max 1000 ms) is classified `EXPIRED` and not
counted as received, and an IMR packet with delay exactly 60000 ms is
classified `OK` and counted as received. -/
theorem C6_deadline_inclusive (p : Params) (pkt : Packet) (gw : ℤ)
    (now : ℚ) (s : SimState) (info : PacketInfo)
    (hf : mapFind s.pktInfoMap pkt.uid = some info)
    (hun : info.m_delay = -1) :
    (pkt.msgType = MsgType.PCC → now - info.m_txTime = 1001 →
      (mapFind (Ok p pkt gw now s).pktInfoMap pkt.uid).map PacketInfo.m_status
          = some PktStatus.EXPIRED ∧
      (Ok p pkt gw now s).nExpired = s.nExpired + 1 ∧
      (Ok p pkt gw now s).nRec = s.nRec) ∧
    (pkt.msgType = MsgType.IMR → now - info.m_txTime = 60000 →
      (mapFind (Ok p pkt gw now s).pktInfoMap pkt.uid).map PacketInfo.m_status
          = some PktStatus.OK ∧
      (Ok p pkt gw now s).nRec = s.nRec + 1 ∧
      (Ok p pkt gw now s).nExpired = s.nExpired) := by
  have hnn : ¬ info.m_delay ≠ -1 := by simp [hun]
  constructor
  · intro hty hdel
    simp only [Ok, hf]
    rw [if_neg hnn, hdel]
    rw [if_neg (by rw [hty]; simp [imrDelay]),
      if_neg (by rw [hty]; simp [pccDelay]; norm_num)]
    refine ⟨?_, rfl, rfl⟩
    simp only [ComputeLqi]
    rw [mapFind_update_self _ _ _ _ (mapFind_update_self _ _ _ _ hf)]
    rfl
  · intro hty hdel
    simp only [Ok, hf]
    rw [if_neg hnn, hdel]
    rw [if_pos (by rw [hty]; simp [imrDelay]; norm_num)]
    refine ⟨?_, rfl, rfl⟩
    simp only [ComputeLqi]
    rw [mapFind_update_self _ _ _ _ (mapFind_update_self _ _ _ _ hf)]
    rfl

theorem C6_deadline_inclusive_witness :
    (Ok p0 pktPcc 1 1001 (Sent pktPcc 4 0 initState)).nExpired
        = (Sent pktPcc 4 0 initState).nExpired + 1 ∧
    (Ok p0 pktImr 1 60000 (Sent pktImr 3 0 initState)).nRec
        = (Sent pktImr 3 0 initState).nRec + 1 :=
  ⟨((C6_deadline_inclusive p0 pktPcc 1 1001 (Sent pktPcc 4 0 initState)
      ⟨2, 4, 0, -1, -1, PktStatus.SENT⟩ (by decide) rfl).1 rfl
      (by norm_num)).2.1,
   ((C6_deadline_inclusive p0 pktImr 1 60000 (Sent pktImr 3 0 initState)
      ⟨1, 3, 0, -1, -1, PktStatus.SENT⟩ (by decide) rfl).2 rfl
      (by norm_num)).2.1⟩

/-- C7: a send for an unseen id inserts a `SENT` record and bumps `nSent`,
the matching per-class sent counter, and the per-window sent counter; a send
for a seen id only bumps the retransmission counter and changes nothing
else. -/
theorem C7_send_behavior (pkt : Packet) (ed : ℤ) (now : ℚ) (s : SimState) :
    (mapFind s.pktInfoMap pkt.uid = none →
      mapFind (Sent pkt ed now s).pktInfoMap pkt.uid
          = some (⟨pkt.uid, ed, now, -1, -1, PktStatus.SENT⟩ : PacketInfo) ∧
      (Sent pkt ed now s).nSent = s.nSent + 1 ∧
      (Sent pkt ed now s).nSentPerHour = s.nSentPerHour + 1 ∧
      (Sent pkt ed now s).nRetx = s.nRetx ∧
      (pkt.msgType = MsgType.IMR →
        (Sent pkt ed now s).nImrSent = s.nImrSent + 1 ∧
        (Sent pkt ed now s).nPccSent = s.nPccSent) ∧
      (pkt.msgType = MsgType.PCC →
        (Sent pkt ed now s).nPccSent = s.nPccSent + 1 ∧
        (Sent pkt ed now s).nImrSent = s.nImrSent)) ∧
    (∀ info, mapFind s.pktInfoMap pkt.uid = some info →
      Sent pkt ed now s = { s with nRetx := s.nRetx + 1 }) := by
  constructor
  · intro hf
    cases hm : pkt.msgType <;> simp [Sent, hf, hm, mapInsert, mapFind]
  · intro info hf
    exact Sent_retx_char pkt ed now s info hf

theorem C7_send_behavior_witness :
    mapFind initState.pktInfoMap pktImr.uid = none ∧
    (Sent pktImr 3 0 initState).nSent = initState.nSent + 1 ∧
    (Sent pktImr 3 0 initState).nImrSent = initState.nImrSent + 1 :=
  ⟨rfl, ((C7_send_behavior pktImr 3 0 initState).1 rfl).2.1,
   (((C7_send_behavior pktImr 3 0 initState).1 rfl).2.2.2.2.1 rfl).1⟩

/-- C8: a sampler tick appends exactly one sample — the window ratio, zero
when nothing was sent in the window, clamped to at most 100 — then resets
only the two per-window counters; every other field of the state is
unchanged. -/
theorem C8_sampler_tick (s : SimState) :
    (CalcPdrsPerHour s).pdrsPerHourVec
        = s.pdrsPerHourVec
          ++ [min (if s.nSentPerHour > 0
              then ((s.nRecPerHour : ℚ) / (s.nSentPerHour : ℚ)) * 100
              else 0) 100] ∧
    min (if s.nSentPerHour > 0
        then ((s.nRecPerHour : ℚ) / (s.nSentPerHour : ℚ)) * 100
        else 0) 100 ≤ 100 ∧
    (s.nSentPerHour ≤ 0 →
      min (if s.nSentPerHour > 0
          then ((s.nRecPerHour : ℚ) / (s.nSentPerHour : ℚ)) * 100
          else 0) 100 = 0) ∧
    (CalcPdrsPerHour s).nSentPerHour = 0 ∧
    (CalcPdrsPerHour s).nRecPerHour = 0 ∧
    (CalcPdrsPerHour s).pktInfoMap = s.pktInfoMap ∧
    (CalcPdrsPerHour s).expiredPkts = s.expiredPkts ∧
    (CalcPdrsPerHour s).interfPkts = s.interfPkts ∧
    (CalcPdrsPerHour s).underPkts = s.underPkts ∧
    (CalcPdrsPerHour s).busyPkts = s.busyPkts ∧
    (CalcPdrsPerHour s).noMorePkts = s.noMorePkts ∧
    (CalcPdrsPerHour s).okPkts = s.okPkts ∧
    (CalcPdrsPerHour s).nSent = s.nSent ∧
    (CalcPdrsPerHour s).nRec = s.nRec ∧
    (CalcPdrsPerHour s).nRetx = s.nRetx ∧
    (CalcPdrsPerHour s).nReqTx = s.nReqTx ∧
    (CalcPdrsPerHour s).nRecAck = s.nRecAck ∧
    (CalcPdrsPerHour s).sumDelay = s.sumDelay ∧
    (CalcPdrsPerHour s).sumRssi = s.sumRssi ∧
    (CalcPdrsPerHour s).sumPktsRssi = s.sumPktsRssi ∧
    (CalcPdrsPerHour s).sumSnr = s.sumSnr ∧
    (CalcPdrsPerHour s).sumPktsSnr = s.sumPktsSnr ∧
    (CalcPdrsPerHour s).consumption = s.consumption ∧
    (CalcPdrsPerHour s).nTotalPkts = s.nTotalPkts ∧
    (CalcPdrsPerHour s).nLost = s.nLost ∧
    (CalcPdrsPerHour s).nInterf = s.nInterf ∧
    (CalcPdrsPerHour s).nUnder = s.nUnder ∧
    (CalcPdrsPerHour s).nBusy = s.nBusy ∧
    (CalcPdrsPerHour s).nNoMore = s.nNoMore ∧
    (CalcPdrsPerHour s).nExpired = s.nExpired ∧
    (CalcPdrsPerHour s).sfDist = s.sfDist ∧
    (CalcPdrsPerHour s).interfPerSf = s.interfPerSf ∧
    (CalcPdrsPerHour s).underPerSf = s.underPerSf ∧
    (CalcPdrsPerHour s).expPerSf = s.expPerSf ∧
    (CalcPdrsPerHour s).busyPerSf = s.busyPerSf ∧
    (CalcPdrsPerHour s).noMorePerSf = s.noMorePerSf ∧
    (CalcPdrsPerHour s).delayPerApp = s.delayPerApp ∧
    (CalcPdrsPerHour s).nImrSent = s.nImrSent ∧
    (CalcPdrsPerHour s).nPccSent = s.nPccSent ∧
    (CalcPdrsPerHour s).nImrRec = s.nImrRec ∧
    (CalcPdrsPerHour s).nPccRec = s.nPccRec := by
  refine ⟨?_, min_le_right _ _, ?_, rfl, rfl, rfl, rfl, rfl, rfl, rfl, rfl, rfl, rfl, rfl, rfl, rfl, rfl, rfl, rfl, rfl, rfl, rfl, rfl, rfl, rfl, rfl, rfl, rfl, rfl, rfl, rfl, rfl, rfl, rfl, rfl, rfl, rfl, rfl, rfl, rfl, rfl⟩
  · simp only [CalcPdrsPerHour]
    rw [min_def]
  · intro h
    rw [if_neg (by omega : ¬ s.nSentPerHour > 0)]
    exact min_eq_left (by norm_num)

theorem C8_sampler_tick_witness :
    (CalcPdrsPerHour initState).pdrsPerHourVec = [(0 : ℚ)] ∧
    (CalcPdrsPerHour initState).nSentPerHour = 0 := by
  have h := C8_sampler_tick initState
  refine ⟨?_, h.2.2.2.1⟩
  rw [h.1, h.2.2.1 (by decide)]
  rfl

/-- C9, counterexample: `ClearData` leaves the scalar counters untouched —
after a run with one delivered packet the cleared state still has
`nSent = nRec = 1` and its delivery-ratio KPI is 100, not the
zero-denominator default. -/
theorem C9_scalars_survive_reset :
    (ClearData sDelivered).nSent = 1 ∧
    (ClearData sDelivered).nRec = 1 ∧
    (PrintMainData p0 (ClearData sDelivered)).pdr = 100 ∧
    (ClearData sDelivered).pktInfoMap = [] := by
  rw [sDelivered_eval]
  refine ⟨rfl, rfl, ?_, rfl⟩
  norm_num [PrintMainData, ClearData, initState]

/-- C9, amended: `ClearData` empties the ledger and every container (uid
vectors, per-SF buckets, `sfDist`, window samples, per-class delay sums) but
leaves every scalar counter and scalar sum exactly as it was. -/
theorem C9_amended_clear_containers_only (s : SimState) :
    (ClearData s).pktInfoMap = [] ∧
    (ClearData s).sfDist = [] ∧
    (ClearData s).pdrsPerHourVec = [] ∧
    (ClearData s).interfPerSf = [] ∧
    (ClearData s).expiredPkts = [] ∧
    (ClearData s).interfPkts = [] ∧
    (ClearData s).underPkts = [] ∧
    (ClearData s).busyPkts = [] ∧
    (ClearData s).noMorePkts = [] ∧
    (ClearData s).okPkts = [] ∧
    (ClearData s).underPerSf = [] ∧
    (ClearData s).expPerSf = [] ∧
    (ClearData s).noMorePerSf = [] ∧
    (ClearData s).busyPerSf = [] ∧
    (ClearData s).delayPerApp = [] ∧
    (ClearData s).nSent = s.nSent ∧
    (ClearData s).nRec = s.nRec ∧
    (ClearData s).nRetx = s.nRetx ∧
    (ClearData s).nReqTx = s.nReqTx ∧
    (ClearData s).nRecAck = s.nRecAck ∧
    (ClearData s).sumDelay = s.sumDelay ∧
    (ClearData s).sumRssi = s.sumRssi ∧
    (ClearData s).sumPktsRssi = s.sumPktsRssi ∧
    (ClearData s).sumSnr = s.sumSnr ∧
    (ClearData s).sumPktsSnr = s.sumPktsSnr ∧
    (ClearData s).consumption = s.consumption ∧
    (ClearData s).nTotalPkts = s.nTotalPkts ∧
    (ClearData s).nLost = s.nLost ∧
    (ClearData s).nInterf = s.nInterf ∧
    (ClearData s).nUnder = s.nUnder ∧
    (ClearData s).nBusy = s.nBusy ∧
    (ClearData s).nNoMore = s.nNoMore ∧
    (ClearData s).nExpired = s.nExpired ∧
    (ClearData s).nSentPerHour = s.nSentPerHour ∧
    (ClearData s).nRecPerHour = s.nRecPerHour ∧
    (ClearData s).nImrSent = s.nImrSent ∧
    (ClearData s).nPccSent = s.nPccSent ∧
    (ClearData s).nImrRec = s.nImrRec ∧
    (ClearData s).nPccRec = s.nPccRec :=
  ⟨rfl, rfl, rfl, rfl, rfl, rfl, rfl, rfl, rfl, rfl, rfl, rfl, rfl, rfl,
   rfl, rfl, rfl, rfl, rfl, rfl, rfl, rfl, rfl, rfl, rfl, rfl, rfl, rfl,
   rfl, rfl, rfl, rfl, rfl, rfl, rfl, rfl, rfl, rfl, rfl⟩

/-- C10 (code bug): with the allocation scheme set to `asfa`, an
interference event for a packet id with no ledger record makes `GetEdId`
return `-1`, which `NodeContainer::Get` receives as
`uint32_t(-1) = 4294967295` — out of bounds for any realistic device count
(here the default 200). -/
theorem C10_asfa_unknown_id_out_of_bounds :
    GetEdId pktImr initState = -1 ∧
    interfAsfaEdIndex pktImr initState = 4294967295 ∧
    ¬ interfAsfaAccessInBounds { p0 with sfa := "asfa" } pktImr initState := by
  decide


end Sas26
